import Mathlib

/-!
Verification of the Subspace consensus-adjacent core: the domain staking
ledger (crates/pallet-domains/src/staking.rs), the light-client
header importer (crates/sp-lightclient/src/lib.rs) and the disk piece cache
(crates/subspace-farmer/src/piece_cache). Machine integers are modelled
as Nat with explicit bounds where the source uses checked arithmetic on
u64/u128, and storage maps as functions into Option.
-/

/-- Exclusive upper bound of u64 values. -/
def u64Size : Nat := 2 ^ 64

/-- Largest u64 value. -/
def u64Max : Nat := 2 ^ 64 - 1

/-- Exclusive upper bound of u128 values. -/
def u128Size : Nat := 2 ^ 128

/-- Checked u128 addition: some (a + b) unless the sum overflows 128 bits,
mirroring checked_add on balances. -/
def checkedAddBal (a b : Nat) : Option Nat :=
  if a + b < u128Size then some (a + b) else none

/-- Checked subtraction: some (a - b) unless b exceeds a, mirroring
checked_sub on balances. -/
def checkedSubBal (a b : Nat) : Option Nat :=
  if b ≤ a then some (a - b) else none

namespace Staking

/-- Operator pool details (struct OperatorPool of staking.rs). The signing
key and the nomination tax are opaque to every ledger operation and are
carried as plain numbers. -/
structure OperatorPool where
  signing_key : Nat
  current_domain_id : Nat
  next_domain_id : Nat
  minimum_nominator_stake : Nat
  nomination_tax : Nat
  current_total_stake : Nat
  current_epoch_rewards : Nat
  total_shares : Nat
  is_frozen : Bool
  deriving DecidableEq

/-- A nominator's details under a specific operator pool. -/
structure Nominator where
  shares : Nat
  deriving DecidableEq

/-- Withdraw intent: everything, or a specific balance. -/
inductive Withdraw where
  | all
  | some (amount : Nat)
  deriving DecidableEq

/-- Staking summary of a domain (struct StakingSummary). -/
structure StakingSummary where
  current_epoch_index : Nat
  current_total_stake : Nat
  current_operators : List Nat
  next_operators : List Nat
  deriving DecidableEq

/-- Configuration passed to register_operator (struct OperatorConfig). -/
structure OperatorConfig where
  signing_key : Nat
  minimum_nominator_stake : Nat
  nomination_tax : Nat
  deriving DecidableEq

/-- Staking errors (enum Error of staking.rs). -/
inductive Error where
  | MaximumOperatorId
  | DomainNotInitialized
  | InsufficientBalance
  | BalanceFreeze
  | MinimumOperatorStake
  | UnknownOperator
  | MinimumNominatorStake
  | BalanceOverflow
  | BalanceUnderflow
  | NotOperatorOwner
  | OperatorPoolFrozen
  | UnknownNominator
  | ExistingFullWithdraw
  deriving DecidableEq

/-- Host-runtime constants consumed by the ledger (trait Config). -/
structure Config where
  minOperatorStake : Nat
  deriving DecidableEq

/-- The ledger's storage items, plus the host currency state consumed
through the freeze interface. Accounts, domain ids and operator ids are
numbers; maps are functions into Option. The field frozen models the
host's balance_frozen(staking_freeze_id(operator_id), who): the freeze
identifier derived from an operator id is modelled as the operator id
itself (the host derivation is deterministic and injective). -/
structure LedgerState where
  nextOperatorId : Nat
  operatorIdOwner : Nat → Option Nat
  operatorPools : Nat → Option OperatorPool
  nominators : Nat → Nat → Option Nominator
  pendingDeposits : Nat → Nat → Option Nat
  pendingWithdrawals : Nat → Nat → Option Withdraw
  domainStakingSummary : Nat → Option StakingSummary
  pendingOperatorSwitches : Nat → Option (List Nat)
  pendingOperatorDeregistrations : Option (List Nat)
  free : Nat → Nat
  frozen : Nat → Nat → Nat

/-- Sum of an account's staking freezes over the first n operator ids. -/
def sumFrozen (frozen : Nat → Nat → Nat) (n who : Nat) : Nat :=
  ((List.range n).map (fun i => frozen i who)).sum

/-- Modelled from the spec: the host currency's reducible (usable) balance
consumed by freeze_account_balance_to_operator, which is not part of the
excerpted source. Per spec section 6.1 and scenario S1, the usable balance
is the free balance less the balance frozen under the staking freeze
identities of the allocated operator ids. -/
def usableBalance (st : LedgerState) (who : Nat) : Nat :=
  st.free who - sumFrozen st.frozen st.nextOperatorId who

/-- Helper freeze_account_balance_to_operator of staking.rs: require
enough reducible balance, add the new deposit on top of the previous lock
with checked arithmetic, and set the freeze. The host's set_freeze is
modelled as always succeeding, so the BalanceFreeze error is never
produced by the model. Returns the resulting state next to the result so
that partial writes on error paths stay observable. -/
def freeze_account_balance_to_operator (st : LedgerState) (who : Nat)
    (operator_id : Nat) (amount : Nat) : Except Error Unit × LedgerState :=
  if usableBalance st who < amount then (.error .InsufficientBalance, st)
  else
    match checkedAddBal (st.frozen operator_id who) amount with
    | none => (.error .BalanceOverflow, st)
    | some balance_to_be_locked =>
      (.ok (), { st with
        frozen := fun i a =>
          if i = operator_id ∧ a = who then balance_to_be_locked
          else st.frozen i a })

/-- do_register_operator of staking.rs. The body runs inside
DomainStakingSummary::try_mutate(domain_id): the summary value is read at
entry and written back only on success, while every other storage write
inside the closure lands immediately; the state threading below mirrors
that, so error paths can leave the counter and owner writes behind
exactly as the source does. -/
def do_register_operator (cfg : Config) (st : LedgerState)
    (operator_owner : Nat) (domain_id : Nat) (amount : Nat)
    (config : OperatorConfig) : Except Error Nat × LedgerState :=
  let maybe_domain_stake_summary := st.domainStakingSummary domain_id
  let operator_id := st.nextOperatorId
  if operator_id < u64Max then
    let st1 := { st with nextOperatorId := operator_id + 1 }
    let st2 := { st1 with
      operatorIdOwner := fun i =>
        if i = operator_id then some operator_owner
        else st1.operatorIdOwner i }
    if amount < cfg.minOperatorStake then (.error .MinimumOperatorStake, st2)
    else
      match freeze_account_balance_to_operator st2 operator_owner operator_id amount with
      | (.error e, st3) => (.error e, st3)
      | (.ok (), st3) =>
        match maybe_domain_stake_summary with
        | none => (.error .DomainNotInitialized, st3)
        | some domain_stake_summary =>
          let operator : OperatorPool :=
            { signing_key := config.signing_key
              current_domain_id := domain_id
              next_domain_id := domain_id
              minimum_nominator_stake := config.minimum_nominator_stake
              nomination_tax := config.nomination_tax
              current_total_stake := 0
              current_epoch_rewards := 0
              total_shares := 0
              is_frozen := false }
          let st4 := { st3 with
            operatorPools := fun i =>
              if i = operator_id then some operator else st3.operatorPools i }
          let st5 := { st4 with
            pendingDeposits := fun i a =>
              if i = operator_id ∧ a = operator_owner then some amount
              else st4.pendingDeposits i a }
          let st6 := { st5 with
            domainStakingSummary := fun d =>
              if d = domain_id then
                some { domain_stake_summary with
                  next_operators :=
                    domain_stake_summary.next_operators ++ [operator_id] }
              else st5.domainStakingSummary d }
          (.ok operator_id, st6)
  else (.error .MaximumOperatorId, st)

/-- do_nominate_operator of staking.rs: the pool must exist and not be
frozen, the pending deposit is topped up with checked arithmetic and must
reach the pool's minimum nominator stake, then the amount is frozen and
the updated deposit recorded. -/
def do_nominate_operator (st : LedgerState) (operator_id : Nat)
    (nominator_id : Nat) (amount : Nat) : Except Error Unit × LedgerState :=
  match st.operatorPools operator_id with
  | none => (.error .UnknownOperator, st)
  | some operator_pool =>
    if operator_pool.is_frozen then (.error .OperatorPoolFrozen, st)
    else
      let updated : Except Error Nat :=
        match st.pendingDeposits operator_id nominator_id with
        | none => .ok amount
        | some existing_deposit =>
          match checkedAddBal existing_deposit amount with
          | none => .error .BalanceOverflow
          | some u => .ok u
      match updated with
      | .error e => (.error e, st)
      | .ok updated_total_deposit =>
        if updated_total_deposit < operator_pool.minimum_nominator_stake then
          (.error .MinimumNominatorStake, st)
        else
          match freeze_account_balance_to_operator st nominator_id operator_id amount with
          | (.error e, st1) => (.error e, st1)
          | (.ok (), st1) =>
            (.ok (), { st1 with
              pendingDeposits := fun i a =>
                if i = operator_id ∧ a = nominator_id then
                  some updated_total_deposit
                else st1.pendingDeposits i a })

/-- do_switch_operator_domain of staking.rs: the caller must be the
operator's owner, the new domain must be initialized, the pool must exist
and not be frozen; then next_domain_id is redirected, the operator is
removed from the current domain's next_operators and queued in
PendingOperatorSwitches of the current domain. The pool mutation is
committed by the outer try_mutate only on success. -/
def do_switch_operator_domain (st : LedgerState) (operator_owner : Nat)
    (operator_id : Nat) (new_domain_id : Nat) : Except Error Nat × LedgerState :=
  if st.operatorIdOwner operator_id ≠ some operator_owner then
    (.error .NotOperatorOwner, st)
  else if (st.domainStakingSummary new_domain_id).isNone then
    (.error .DomainNotInitialized, st)
  else
    match st.operatorPools operator_id with
    | none => (.error .UnknownOperator, st)
    | some operator_pool =>
      if operator_pool.is_frozen then (.error .OperatorPoolFrozen, st)
      else
        let pool1 := { operator_pool with next_domain_id := new_domain_id }
        match st.domainStakingSummary operator_pool.current_domain_id with
        | none => (.error .DomainNotInitialized, st)
        | some stake_summary =>
          let st1 := { st with
            domainStakingSummary := fun d =>
              if d = operator_pool.current_domain_id then
                some { stake_summary with
                  next_operators :=
                    stake_summary.next_operators.filter (fun v => v ≠ operator_id) }
              else st.domainStakingSummary d }
          let st2 := { st1 with
            pendingOperatorSwitches := fun d =>
              if d = operator_pool.current_domain_id then
                some ((st1.pendingOperatorSwitches d).getD [] ++ [operator_id])
              else st1.pendingOperatorSwitches d }
          let st3 := { st2 with
            operatorPools := fun i =>
              if i = operator_id then some pool1 else st2.operatorPools i }
          (.ok operator_pool.current_domain_id, st3)

/-- do_deregister_operator of staking.rs: ownership and existence checks,
not already frozen; then the pool is frozen (terminal), removed from the
current domain's next_operators and queued in
PendingOperatorDeregistrations. -/
def do_deregister_operator (st : LedgerState) (operator_owner : Nat)
    (operator_id : Nat) : Except Error Unit × LedgerState :=
  if st.operatorIdOwner operator_id ≠ some operator_owner then
    (.error .NotOperatorOwner, st)
  else
    match st.operatorPools operator_id with
    | none => (.error .UnknownOperator, st)
    | some operator_pool =>
      if operator_pool.is_frozen then (.error .OperatorPoolFrozen, st)
      else
        let pool1 := { operator_pool with is_frozen := true }
        match st.domainStakingSummary operator_pool.current_domain_id with
        | none => (.error .DomainNotInitialized, st)
        | some stake_summary =>
          let st1 := { st with
            domainStakingSummary := fun d =>
              if d = operator_pool.current_domain_id then
                some { stake_summary with
                  next_operators :=
                    stake_summary.next_operators.filter (fun v => v ≠ operator_id) }
              else st.domainStakingSummary d }
          let st2 := { st1 with
            pendingOperatorDeregistrations :=
              some (st1.pendingOperatorDeregistrations.getD [] ++ [operator_id]) }
          let st3 := { st2 with
            operatorPools := fun i =>
              if i = operator_id then some pool1 else st2.operatorPools i }
          (.ok (), st3)

/-- Modelled from the spec: the host's Perbill proportional scaling
(section 6.1), which lives in sp_runtime outside the excerpted source.
Perbill::from_rational(p, q) produces parts per billion rounding down,
with the denominator clamped to at least one and the result saturating at
one billion. -/
def perbillFromRational (p q : Nat) : Nat :=
  min (p * 1000000000 / max q 1) 1000000000

/-- Modelled from the spec: multiplication of a Perbill by a balance,
integer scaling with rounding down (section 6.1). -/
def perbillMul (parts x : Nat) : Nat :=
  parts * x / 1000000000

/-- The share-derived stake of a nominator in a pool: the nominator's
share proportion applied to current_total_stake + current_epoch_rewards,
as computed inside do_withdraw_stake. -/
def nominatorStakedAmount (pool : OperatorPool) (nominator : Nominator) : Nat :=
  perbillMul (perbillFromRational nominator.shares pool.total_shares)
    (pool.current_total_stake + pool.current_epoch_rewards)

/-- The combine step of do_withdraw_stake: merge the existing pending
withdrawal, if any, with the new intent. An existing full withdrawal
rejects anything further; a new full intent absorbs an existing partial
one; two partials are summed with checked arithmetic. -/
def combineWithdraw (existing : Option Withdraw) (withdraw : Withdraw) :
    Except Error Withdraw :=
  match existing with
  | none => .ok withdraw
  | some existing_withdraw =>
    match existing_withdraw, withdraw with
    | .all, _ => .error .ExistingFullWithdraw
    | _, .all => .ok .all
    | .some previous_withdraw, .some new_withdraw =>
      match checkedAddBal previous_withdraw new_withdraw with
      | none => .error .BalanceOverflow
      | some c => .ok (.some c)

/-- do_withdraw_stake of staking.rs: gates (pool exists and is not
frozen, nominator known, owner known), combine with any pending
withdrawal, then apply the stake-floor rules: the owner may never fully
withdraw and must keep MinOperatorStake; a plain nominator whose residual
would drop below the pool's minimum_nominator_stake is promoted to a full
withdrawal. -/
def do_withdraw_stake (cfg : Config) (st : LedgerState) (operator_id : Nat)
    (nominator_id : Nat) (withdraw : Withdraw) : Except Error Unit × LedgerState :=
  match st.operatorPools operator_id with
  | none => (.error .UnknownOperator, st)
  | some operator_pool =>
    if operator_pool.is_frozen then (.error .OperatorPoolFrozen, st)
    else
      match st.nominators operator_id nominator_id with
      | none => (.error .UnknownNominator, st)
      | some nominator =>
        match st.operatorIdOwner operator_id with
        | none => (.error .UnknownOperator, st)
        | some operator_owner =>
          match combineWithdraw (st.pendingWithdrawals operator_id nominator_id) withdraw with
          | .error e => (.error e, st)
          | .ok combined =>
            match combined with
            | .all =>
              if operator_owner = nominator_id then
                (.error .MinimumOperatorStake, st)
              else
                (.ok (), { st with
                  pendingWithdrawals := fun i a =>
                    if i = operator_id ∧ a = nominator_id then some .all
                    else st.pendingWithdrawals i a })
            | .some withdraw_amount =>
              match checkedAddBal operator_pool.current_total_stake
                  operator_pool.current_epoch_rewards with
              | none => (.error .BalanceOverflow, st)
              | some total_pool_stake =>
                let nominator_share :=
                  perbillFromRational nominator.shares operator_pool.total_shares
                let nominator_staked_amount := perbillMul nominator_share total_pool_stake
                match checkedSubBal nominator_staked_amount withdraw_amount with
                | none => (.error .BalanceUnderflow, st)
                | some nominator_remaining_amount =>
                  if operator_owner = nominator_id then
                    if nominator_remaining_amount < cfg.minOperatorStake then
                      (.error .MinimumOperatorStake, st)
                    else
                      (.ok (), { st with
                        pendingWithdrawals := fun i a =>
                          if i = operator_id ∧ a = nominator_id then
                            some (.some withdraw_amount)
                          else st.pendingWithdrawals i a })
                  else if nominator_remaining_amount < operator_pool.minimum_nominator_stake then
                    (.ok (), { st with
                      pendingWithdrawals := fun i a =>
                        if i = operator_id ∧ a = nominator_id then some .all
                        else st.pendingWithdrawals i a })
                  else
                    (.ok (), { st with
                      pendingWithdrawals := fun i a =>
                        if i = operator_id ∧ a = nominator_id then
                          some (.some withdraw_amount)
                        else st.pendingWithdrawals i a })

/-- A ledger extrinsic call, used to state atomicity uniformly over the
five staking operations. -/
inductive LedgerCall where
  | register (owner domain_id amount : Nat) (config : OperatorConfig)
  | nominate (operator_id nominator_id amount : Nat)
  | switchDomain (owner operator_id new_domain_id : Nat)
  | deregister (owner operator_id : Nat)
  | withdraw (operator_id nominator_id : Nat) (w : Withdraw)

/-- Outcome of a successful ledger call. -/
inductive CallOutcome where
  | registered (operator_id : Nat)
  | switched (old_domain_id : Nat)
  | done
  deriving DecidableEq

/-- Runs the staking operation named by the call, exposing the raw
(possibly partially written) state the operation's body produces. -/
def dispatchCall (cfg : Config) (st : LedgerState) :
    LedgerCall → Except Error CallOutcome × LedgerState
  | .register owner domain_id amount config =>
    match do_register_operator cfg st owner domain_id amount config with
    | (.ok operator_id, st1) => (.ok (.registered operator_id), st1)
    | (.error e, st1) => (.error e, st1)
  | .nominate operator_id nominator_id amount =>
    match do_nominate_operator st operator_id nominator_id amount with
    | (.ok (), st1) => (.ok .done, st1)
    | (.error e, st1) => (.error e, st1)
  | .switchDomain owner operator_id new_domain_id =>
    match do_switch_operator_domain st owner operator_id new_domain_id with
    | (.ok old_domain, st1) => (.ok (.switched old_domain), st1)
    | (.error e, st1) => (.error e, st1)
  | .deregister owner operator_id =>
    match do_deregister_operator st owner operator_id with
    | (.ok (), st1) => (.ok .done, st1)
    | (.error e, st1) => (.error e, st1)
  | .withdraw operator_id nominator_id w =>
    match do_withdraw_stake cfg st operator_id nominator_id w with
    | (.ok (), st1) => (.ok .done, st1)
    | (.error e, st1) => (.error e, st1)

/-- Modelled from the spec: the host runtime's transactional dispatch of
ledger extrinsics (sections 4.1 Failure semantics and 7), which is not
part of the excerpted source. Every staking call runs inside a
transactional storage layer: on success all writes commit, on error the
whole layer is rolled back and the pre-call state is restored. -/
def applyCall (cfg : Config) (st : LedgerState) (call : LedgerCall) :
    Except Error CallOutcome × LedgerState :=
  match dispatchCall cfg st call with
  | (.error e, _) => (.error e, st)
  | (.ok v, st1) => (.ok v, st1)

end Staking

namespace Lightclient

/-- Pre-digest content of a header (sp-consensus-subspace PreDigest):
the claimed slot and the solution's public key, tag and local challenge.
The tag is the u64 read from the solution's big-endian tag bytes. -/
structure PreDigest where
  slot : Nat
  solutionPublicKey : Nat
  solutionTag : Nat
  solutionLocalChallenge : Nat
  deriving DecidableEq

/-- A consensus header together with its subspace digest items. Digest
extraction (extract_subspace_digest_items, extract_pre_digest) decodes
opaque digest logs; the model carries the decoded items as fields, with a
sealPresent flag standing for the seal digest log that
verify_block_signature pops and pushes back. The hash is an abstract
attribute standing for header.hash(). -/
structure Header where
  number : Nat
  parentHash : Nat
  hash : Nat
  preDigest : PreDigest
  globalRandomness : Nat
  solutionRange : Nat
  salt : Nat
  sealPresent : Bool
  deriving DecidableEq

/-- HeaderExt of sp-lightclient: a header plus derived post-import
values and the cumulative chain weight. -/
structure HeaderExt where
  header : Header
  derived_global_randomness : Nat
  derived_solution_range : Nat
  derived_salt : Nat
  total_weight : Nat
  deriving DecidableEq

/-- Digest kinds appearing in import errors. -/
inductive ErrorDigestType where
  | globalRandomness
  | solutionRange
  | salt
  | seal
  deriving DecidableEq

/-- Errors during header import (enum ImportError). -/
inductive ImportError where
  | headerAlreadyImported
  | missingParent (hash : Nat)
  | digestExtractionError (t : ErrorDigestType)
  | invalidDigest (t : ErrorDigestType)
  | invalidSlot
  | invalidBlockSignature
  | invalidSolution
  | arithmeticError
  deriving DecidableEq

/-- Modelled from the spec: the cryptographic collaborators of section
6.3 (check_reward_signature, verify_solution, derive_global_challenge,
derive_target), pure deterministic black boxes living outside the
excerpted source. -/
structure Crypto where
  checkSignature : Header → Bool
  verifySolution : Header → Bool
  deriveGlobalChallenge : Nat → Nat → Nat
  deriveTarget : Nat → Nat → Nat → Nat

/-- Modelled from the spec: subspace_core_primitives::bidirectional_distance,
a pure collaborator (section 6.3): the smaller of the two wrapping u64
distances between a and b. -/
def bidirectional_distance (a b : Nat) : Nat :=
  min ((a % u64Size + u64Size - b % u64Size) % u64Size)
    ((b % u64Size + u64Size - a % u64Size) % u64Size)

/-- calculate_block_weight of sp-lightclient: u64::MAX minus the
bidirectional distance between the derived target and the solution tag,
promoted to 128 bits. -/
def calculate_block_weight (C : Crypto) (h : Header) : Nat :=
  let global_challenge := C.deriveGlobalChallenge h.globalRandomness h.preDigest.slot
  let target := C.deriveTarget h.preDigest.solutionPublicKey global_challenge
    h.preDigest.solutionLocalChallenge
  let tag := h.preDigest.solutionTag
  u64Max - bidirectional_distance target tag

/-- Modelled from the spec: an in-memory instance of the Storage trait
(section 3.2), whose implementations live outside the excerpted source:
a map from hash to stored HeaderExt plus the current best tip. -/
structure Store where
  headers : Nat → Option HeaderExt
  best : HeaderExt

/-- Modelled from the spec: Storage::store_header — insert the extended
header and, when as_best_header is set, atomically promote the tip. -/
def Store.store_header (s : Store) (header_ext : HeaderExt)
    (as_best_header : Bool) : Store :=
  { headers := fun x =>
      if x = header_ext.header.hash then some header_ext else s.headers x
    best := if as_best_header then header_ext else s.best }

/-- The HeaderExt built by import_header for a verified header: derived
values carried over from the header's digest items (equal to the
parent's after the digest check) and the cumulative weight, whose u128
addition wraps modulo 2 to the 128. -/
def importedHeaderExt (C : Crypto) (parent : HeaderExt) (h : Header) : HeaderExt :=
  { header := h
    derived_global_randomness := h.globalRandomness
    derived_solution_range := h.solutionRange
    derived_salt := h.salt
    total_weight := (parent.total_weight + calculate_block_weight C h) % u128Size }

/-- The fork-choice decision of import_header, lines 194-208 of
sp-lightclient: the header extending the current best is best; otherwise
compare total weights, breaking a tie by the longer chain. -/
def isBestHeader (last_best : HeaderExt) (parent : HeaderExt) (h : Header)
    (total_weight : Nat) : Bool :=
  if last_best.header.hash = parent.header.hash then true
  else if last_best.total_weight < total_weight then true
  else if total_weight = last_best.total_weight then
    decide (last_best.header.number < h.number)
  else false

/-- import_header of sp-lightclient: reject repeats, require the parent,
check the digest items against the parent's derived values, require a
strictly increasing slot, verify the seal signature and the solution,
compute the cumulative weight, decide fork choice and store the extended
header. -/
def import_header (C : Crypto) (store : Store) (h : Header) :
    Except ImportError Store :=
  match store.headers h.hash with
  | some _ => .error .headerAlreadyImported
  | none =>
    match store.headers h.parentHash with
    | none => .error (.missingParent h.hash)
    | some parent_header =>
      if h.globalRandomness ≠ parent_header.derived_global_randomness then
        .error (.invalidDigest .globalRandomness)
      else if h.solutionRange ≠ parent_header.derived_solution_range then
        .error (.invalidDigest .solutionRange)
      else if h.salt ≠ parent_header.derived_salt then
        .error (.invalidDigest .salt)
      else if h.preDigest.slot ≤ parent_header.header.preDigest.slot then
        .error .invalidSlot
      else if h.sealPresent = false then
        .error (.digestExtractionError .seal)
      else if C.checkSignature h = false then
        .error .invalidBlockSignature
      else if C.verifySolution h = false then
        .error .invalidSolution
      else
        let header_ext := importedHeaderExt C parent_header h
        let is_best_header :=
          isBestHeader store.best parent_header h header_ext.total_weight
        .ok (store.store_header header_ext is_best_header)

end Lightclient

namespace Cache

/-- Piece cache errors: writes outside the configured capacity fail. -/
inductive PieceCacheError where
  | offsetOutsideOfRange (provided mx : Nat)
  deriving DecidableEq

/-- Modelled from the spec: the disk piece cache of
crates/subspace-farmer/src/piece_cache (sections 3.3 and 4.3), whose
implementation is not among the excerpted sources, only its tests. A
fixed capacity of slots, each empty or holding a piece index and piece. -/
structure PieceCache where
  capacity : Nat
  slots : Nat → Option (Nat × Nat)

/-- Modelled from the spec: opening a fresh cache file with the given
capacity yields all-empty slots. -/
def openCache (capacity : Nat) : PieceCache :=
  { capacity := capacity, slots := fun _ => none }

/-- Modelled from the spec: write_piece stores the index-piece pair at
the offset, failing with OffsetOutsideOfRange when the offset is not
below the capacity. -/
def write_piece (c : PieceCache) (offset : Nat) (piece_index : Nat)
    (piece : Nat) : Except PieceCacheError PieceCache :=
  if offset < c.capacity then
    .ok { c with slots := fun o =>
      if o = offset then some (piece_index, piece) else c.slots o }
  else .error (.offsetOutsideOfRange offset c.capacity)

/-- Modelled from the spec: read_piece returns the piece at the offset,
or none for an empty slot. -/
def read_piece (c : PieceCache) (offset : Nat) : Option Nat :=
  (c.slots offset).map (fun s => s.2)

/-- Modelled from the spec: read_piece_index returns the piece index at
the offset, or none for an empty slot. -/
def read_piece_index (c : PieceCache) (offset : Nat) : Option Nat :=
  (c.slots offset).map (fun s => s.1)

/-- Modelled from the spec: wipe empties every slot, keeping the
capacity. -/
def wipe (c : PieceCache) : PieceCache :=
  { capacity := c.capacity, slots := fun _ => none }

end Cache

/-! Concrete fixtures mirroring the withdraw_stake test harness of
staking.rs: operator pool 0 owned by account 0, total stake 210 with 20
of epoch rewards, nominator shares 150 / 50 / 10 for accounts 0 / 1 / 2,
minimum nominator stake 10, MinOperatorStake 100. -/

/-- Host configuration used by the concrete fixtures. -/
def cfg0 : Staking.Config := { minOperatorStake := 100 }

/-- The sample operator pool of the withdraw_stake tests. -/
def pool0 : Staking.OperatorPool :=
  { signing_key := 7
    current_domain_id := 0
    next_domain_id := 0
    minimum_nominator_stake := 10
    nomination_tax := 0
    current_total_stake := 210
    current_epoch_rewards := 20
    total_shares := 210
    is_frozen := false }

/-- The staking summary of domain 0 in the fixtures. -/
def summary0 : Staking.StakingSummary :=
  { current_epoch_index := 0
    current_total_stake := 210
    current_operators := [0]
    next_operators := [0] }

/-- A ledger state holding pool 0 with its three nominators. -/
def st0 : Staking.LedgerState :=
  { nextOperatorId := 1
    operatorIdOwner := fun i => if i = 0 then some 0 else none
    operatorPools := fun i => if i = 0 then some pool0 else none
    nominators := fun i a =>
      if i = 0 then
        if a = 0 then some { shares := 150 }
        else if a = 1 then some { shares := 50 }
        else if a = 2 then some { shares := 10 }
        else none
      else none
    pendingDeposits := fun _ _ => none
    pendingWithdrawals := fun _ _ => none
    domainStakingSummary := fun d => if d = 0 then some summary0 else none
    pendingOperatorSwitches := fun _ => none
    pendingOperatorDeregistrations := none
    free := fun _ => 1500
    frozen := fun _ _ => 0 }

/-- Pool 0 after deregistration froze it. -/
def pool0f : Staking.OperatorPool := { pool0 with is_frozen := true }

/-- The fixture state with pool 0 frozen. -/
def st0f : Staking.LedgerState :=
  { st0 with operatorPools := fun i => if i = 0 then some pool0f else none }

/-- The fixture state with a pending full withdrawal by nominator 1. -/
def st0w : Staking.LedgerState :=
  { st0 with pendingWithdrawals := fun i a =>
      if i = 0 ∧ a = 1 then some .all else none }

/-! Claim theorems. -/

/-- C1: every staking-ledger operation is atomic at the transactional
call level: when the call returns an error the ledger state (counter,
ownership, pools, deposits, withdrawals, summaries, pending switches and
deregistrations, balances and freezes) is exactly the pre-call state,
and when it returns Ok the state is exactly the one produced by the
operation's writes. -/
theorem staking_call_atomic (cfg : Staking.Config) (st : Staking.LedgerState)
    (call : Staking.LedgerCall) :
    (∀ e : Staking.Error, (Staking.applyCall cfg st call).1 = .error e →
      (Staking.applyCall cfg st call).2 = st)
    ∧ (∀ v : Staking.CallOutcome, (Staking.applyCall cfg st call).1 = .ok v →
      (Staking.applyCall cfg st call).2 = (Staking.dispatchCall cfg st call).2) := by
  rcases hd : Staking.dispatchCall cfg st call with ⟨r, st1⟩
  cases r with
  | error e => simp [Staking.applyCall, hd]
  | ok v => simp [Staking.applyCall, hd]

/-- C1 witness: nominating a never-registered operator fails with
UnknownOperator and the transactional call leaves the fixture state
untouched. -/
theorem staking_call_atomic_witness :
    (Staking.applyCall cfg0 st0 (.nominate 5 1 100)).1 =
      .error .UnknownOperator
    ∧ (Staking.applyCall cfg0 st0 (.nominate 5 1 100)).2 = st0 :=
  ⟨rfl, (staking_call_atomic cfg0 st0 (.nominate 5 1 100)).1 .UnknownOperator rfl⟩

/-- C10: for an operator id that was never registered (no OperatorIdOwner
entry), switch_operator_domain and deregister_operator fail with
NotOperatorOwner, not UnknownOperator, because the ownership check comes
before the pool-existence check; the state is left unchanged. -/
theorem unregistered_operator_not_owner (st : Staking.LedgerState)
    (caller operator_id new_domain_id : Nat)
    (hnone : st.operatorIdOwner operator_id = none) :
    Staking.do_switch_operator_domain st caller operator_id new_domain_id =
      (.error .NotOperatorOwner, st)
    ∧ Staking.do_deregister_operator st caller operator_id =
      (.error .NotOperatorOwner, st) := by
  constructor
  · simp [Staking.do_switch_operator_domain, hnone]
  · simp [Staking.do_deregister_operator, hnone]

/-- C10 witness: operator id 5 is unregistered in the fixture state, and
both operations report NotOperatorOwner there. -/
theorem unregistered_operator_not_owner_witness :
    Staking.do_switch_operator_domain st0 3 5 0 =
      (.error .NotOperatorOwner, st0)
    ∧ Staking.do_deregister_operator st0 3 5 =
      (.error .NotOperatorOwner, st0) :=
  unregistered_operator_not_owner st0 3 5 0 rfl

/-- C5: once a pool is frozen, nominate_operator and withdraw_stake on it
fail with OperatorPoolFrozen for every caller, and switch_operator_domain
and deregister_operator fail with OperatorPoolFrozen for the pool's owner
(whose ownership and target-domain gates come first); every such call
leaves the whole state, in particular the pool's stake, shares and domain
assignment, unchanged. -/
theorem frozen_pool_rejects_operations (cfg : Staking.Config)
    (st : Staking.LedgerState) (operator_id : Nat)
    (pool : Staking.OperatorPool)
    (hpool : st.operatorPools operator_id = some pool)
    (hfz : pool.is_frozen = true) :
    (∀ nominator_id amount : Nat,
      Staking.do_nominate_operator st operator_id nominator_id amount =
        (.error .OperatorPoolFrozen, st))
    ∧ (∀ (nominator_id : Nat) (w : Staking.Withdraw),
      Staking.do_withdraw_stake cfg st operator_id nominator_id w =
        (.error .OperatorPoolFrozen, st))
    ∧ (∀ caller new_domain_id : Nat, ∀ s : Staking.StakingSummary,
      st.operatorIdOwner operator_id = some caller →
      st.domainStakingSummary new_domain_id = some s →
      Staking.do_switch_operator_domain st caller operator_id new_domain_id =
        (.error .OperatorPoolFrozen, st))
    ∧ (∀ caller : Nat,
      st.operatorIdOwner operator_id = some caller →
      Staking.do_deregister_operator st caller operator_id =
        (.error .OperatorPoolFrozen, st)) := by
  refine ⟨?_, ?_, ?_, ?_⟩
  · intro nominator_id amount
    simp [Staking.do_nominate_operator, hpool, hfz]
  · intro nominator_id w
    simp [Staking.do_withdraw_stake, hpool, hfz]
  · intro caller new_domain_id s hown hsum
    simp [Staking.do_switch_operator_domain, hown, hsum, hpool, hfz]
  · intro caller hown
    simp [Staking.do_deregister_operator, hown, hpool, hfz]

/-- C5 witness: on the fixture state with pool 0 frozen, a nomination by
account 9 fails with OperatorPoolFrozen and changes nothing. -/
theorem frozen_pool_rejects_operations_witness :
    Staking.do_nominate_operator st0f 0 9 100 =
      (.error .OperatorPoolFrozen, st0f) :=
  (frozen_pool_rejects_operations cfg0 st0f 0 pool0f rfl rfl).1 9 100

/-- C9: on an open piece cache, writing a piece at an in-range offset
succeeds, and a subsequent read_piece returns the piece while
read_piece_index returns its index; every offset of a freshly opened or
wiped cache reads back as empty. -/
theorem piece_cache_read_after_write (c : Cache.PieceCache)
    (offset piece_index piece : Nat)
    (h : offset < c.capacity) :
    (Cache.write_piece c offset piece_index piece).isOk = true
    ∧ (∀ c1 : Cache.PieceCache,
        Cache.write_piece c offset piece_index piece = .ok c1 →
        Cache.read_piece c1 offset = some piece
        ∧ Cache.read_piece_index c1 offset = some piece_index)
    ∧ (∀ n o : Nat, Cache.read_piece (Cache.openCache n) o = none
        ∧ Cache.read_piece_index (Cache.openCache n) o = none)
    ∧ (∀ o : Nat, Cache.read_piece (Cache.wipe c) o = none
        ∧ Cache.read_piece_index (Cache.wipe c) o = none) := by
  refine ⟨?_, ?_, ?_, ?_⟩
  · simp [Cache.write_piece, h, Except.isOk, Except.toBool]
  · intro c1 hw
    simp [Cache.write_piece, h] at hw
    subst hw
    simp [Cache.read_piece, Cache.read_piece_index]
  · intro n o
    simp [Cache.read_piece, Cache.read_piece_index, Cache.openCache]
  · intro o
    simp [Cache.read_piece, Cache.read_piece_index, Cache.wipe]

/-- C9 witness: writing piece 55 with index 13 at offset 0 of a fresh
two-slot cache reads back, and the fresh cache is empty at offset 1. -/
theorem piece_cache_read_after_write_witness :
    Cache.read_piece ({ capacity := 2, slots := fun o =>
        if o = 0 then some (13, 55) else (Cache.openCache 2).slots o }) 0 =
      some 55
    ∧ Cache.read_piece (Cache.openCache 2) 1 = none :=
  ⟨((piece_cache_read_after_write (Cache.openCache 2) 0 13 55 (by decide)).2.1
      _ rfl).1,
    ((piece_cache_read_after_write (Cache.openCache 2) 0 13 55
      (by decide)).2.2.1 2 1).1⟩

/-- C3: withdraw_stake combines the pending withdrawal with the new
intent: an existing full withdrawal rejects anything further with
ExistingFullWithdraw (the stored value stays All); a new full intent
absorbs an existing partial one; two partials sum with BalanceOverflow on
overflow; with no existing entry the new intent is kept unchanged. -/
theorem withdraw_combine_rules (cfg : Staking.Config)
    (st : Staking.LedgerState) (operator_id nominator_id owner : Nat)
    (pool : Staking.OperatorPool) (nmr : Staking.Nominator)
    (hpool : st.operatorPools operator_id = some pool)
    (hfr : pool.is_frozen = false)
    (hnom : st.nominators operator_id nominator_id = some nmr)
    (hown : st.operatorIdOwner operator_id = some owner) :
    (∀ w : Staking.Withdraw,
      Staking.combineWithdraw (some .all) w = .error .ExistingFullWithdraw)
    ∧ (∀ a : Nat, Staking.combineWithdraw (some (.some a)) .all = .ok .all)
    ∧ (∀ a b : Nat, a + b < u128Size →
      Staking.combineWithdraw (some (.some a)) (.some b) = .ok (.some (a + b)))
    ∧ (∀ a b : Nat, u128Size ≤ a + b →
      Staking.combineWithdraw (some (.some a)) (.some b) =
        .error .BalanceOverflow)
    ∧ (∀ w : Staking.Withdraw, Staking.combineWithdraw none w = .ok w)
    ∧ (st.pendingWithdrawals operator_id nominator_id = some .all →
      ∀ w : Staking.Withdraw,
        Staking.do_withdraw_stake cfg st operator_id nominator_id w =
          (.error .ExistingFullWithdraw, st)
        ∧ (Staking.do_withdraw_stake cfg st operator_id
            nominator_id w).2.pendingWithdrawals operator_id nominator_id =
          some .all) := by
  refine ⟨?_, ?_, ?_, ?_, ?_, ?_⟩
  · intro w; cases w <;> simp [Staking.combineWithdraw]
  · intro a; simp [Staking.combineWithdraw]
  · intro a b hlt; simp [Staking.combineWithdraw, checkedAddBal, hlt]
  · intro a b hge
    simp [Staking.combineWithdraw, checkedAddBal, Nat.not_lt.2 hge]
  · intro w; simp [Staking.combineWithdraw]
  · intro hex w
    have heq : Staking.do_withdraw_stake cfg st operator_id nominator_id w =
        (.error .ExistingFullWithdraw, st) := by
      simp [Staking.do_withdraw_stake, hpool, hfr, hnom, hown, hex,
        Staking.combineWithdraw]
    exact ⟨heq, by rw [heq]; exact hex⟩

/-- C3 witness: on the fixture with a pending full withdrawal for
nominator 1, a further partial intent fails with ExistingFullWithdraw and
the stored entry stays All. -/
theorem withdraw_combine_rules_witness :
    Staking.do_withdraw_stake cfg0 st0w 0 1 (.some 10) =
      (.error .ExistingFullWithdraw, st0w)
    ∧ (Staking.do_withdraw_stake cfg0 st0w 0 1
        (.some 10)).2.pendingWithdrawals 0 1 = some .all :=
  (withdraw_combine_rules cfg0 st0w 0 1 0 pool0 { shares := 50 }
    rfl rfl rfl rfl).2.2.2.2.2 rfl (.some 10)

/-- C2: for the pool owner, a combined full withdrawal fails with
MinimumOperatorStake leaving the state (and so the absent pending entry)
unchanged; a combined partial withdrawal succeeds exactly when the
owner's residual share-derived stake stays at or above MinOperatorStake,
fails with MinimumOperatorStake when the residual is defined but below
the floor, and every Ok call therefore stores a withdrawal respecting
the floor. -/
theorem withdraw_stake_owner_floor (cfg : Staking.Config)
    (st : Staking.LedgerState) (operator_id nominator_id : Nat)
    (w : Staking.Withdraw) (pool : Staking.OperatorPool)
    (nmr : Staking.Nominator)
    (hpool : st.operatorPools operator_id = some pool)
    (hfr : pool.is_frozen = false)
    (hnom : st.nominators operator_id nominator_id = some nmr)
    (hown : st.operatorIdOwner operator_id = some nominator_id) :
    (Staking.combineWithdraw (st.pendingWithdrawals operator_id nominator_id)
        w = .ok .all →
      Staking.do_withdraw_stake cfg st operator_id nominator_id w =
        (.error .MinimumOperatorStake, st))
    ∧ (∀ wamt : Nat,
      Staking.combineWithdraw (st.pendingWithdrawals operator_id nominator_id)
          w = .ok (.some wamt) →
      pool.current_total_stake + pool.current_epoch_rewards < u128Size →
      ((wamt ≤ Staking.nominatorStakedAmount pool nmr →
          cfg.minOperatorStake ≤ Staking.nominatorStakedAmount pool nmr - wamt →
          Staking.do_withdraw_stake cfg st operator_id nominator_id w =
            (.ok (), { st with pendingWithdrawals := fun i a =>
                if i = operator_id ∧ a = nominator_id then some (.some wamt)
                else st.pendingWithdrawals i a }))
        ∧ (wamt ≤ Staking.nominatorStakedAmount pool nmr →
          Staking.nominatorStakedAmount pool nmr - wamt < cfg.minOperatorStake →
          Staking.do_withdraw_stake cfg st operator_id nominator_id w =
            (.error .MinimumOperatorStake, st))
        ∧ ((Staking.do_withdraw_stake cfg st operator_id nominator_id w).1 =
            .ok () →
          wamt ≤ Staking.nominatorStakedAmount pool nmr ∧
          cfg.minOperatorStake ≤
            Staking.nominatorStakedAmount pool nmr - wamt))) := by
  constructor
  · intro hcw
    simp [Staking.do_withdraw_stake, hpool, hfr, hnom, hown, hcw]
  · intro wamt hcw htp
    have hts : checkedAddBal pool.current_total_stake
        pool.current_epoch_rewards =
        some (pool.current_total_stake + pool.current_epoch_rewards) := by
      simp [checkedAddBal, htp]
    refine ⟨?_, ?_, ?_⟩
    · intro hle hmin
      simp [Staking.do_withdraw_stake, hpool, hfr, hnom, hown, hcw, hts,
        checkedSubBal, Staking.nominatorStakedAmount] at *
      simp [hle, Nat.not_lt.2 hmin]
    · intro hle hmin
      simp [Staking.do_withdraw_stake, hpool, hfr, hnom, hown, hcw, hts,
        checkedSubBal, Staking.nominatorStakedAmount] at *
      simp [hle, hmin]
    · intro hok
      by_cases hle : wamt ≤ Staking.nominatorStakedAmount pool nmr
      · by_cases hmin : Staking.nominatorStakedAmount pool nmr - wamt <
            cfg.minOperatorStake
        · exfalso
          have heq : Staking.do_withdraw_stake cfg st operator_id
              nominator_id w = (.error .MinimumOperatorStake, st) := by
            simp [Staking.do_withdraw_stake, hpool, hfr, hnom, hown, hcw, hts,
              checkedSubBal, Staking.nominatorStakedAmount] at *
            simp [hle, hmin]
          rw [heq] at hok
          simp at hok
        · exact ⟨hle, Nat.not_lt.1 hmin⟩
      · exfalso
        have heq : Staking.do_withdraw_stake cfg st operator_id
            nominator_id w = (.error .BalanceUnderflow, st) := by
          simp only [Staking.nominatorStakedAmount] at hle
          simp [Staking.do_withdraw_stake, hpool, hfr, hnom, hown, hcw, hts,
            checkedSubBal, hle]
        rw [heq] at hok
        simp at hok

/-- C2 witness: the fixture owner (account 0) asking to withdraw All is
rejected with MinimumOperatorStake and nothing is stored. -/
theorem withdraw_stake_owner_floor_witness :
    Staking.do_withdraw_stake cfg0 st0 0 0 .all =
      (.error .MinimumOperatorStake, st0) :=
  (withdraw_stake_owner_floor cfg0 st0 0 0 .all pool0 { shares := 150 }
    rfl rfl rfl rfl).1 rfl

/-- C4: for a non-owner nominator with a combined partial intent whose
residual is defined, the call succeeds; when the residual falls below
the pool's minimum nominator stake the stored intent is promoted to All,
otherwise the partial amount itself is stored. -/
theorem withdraw_stake_nominator_promotion (cfg : Staking.Config)
    (st : Staking.LedgerState) (operator_id nominator_id owner : Nat)
    (w : Staking.Withdraw) (pool : Staking.OperatorPool)
    (nmr : Staking.Nominator) (wamt : Nat)
    (hpool : st.operatorPools operator_id = some pool)
    (hfr : pool.is_frozen = false)
    (hnom : st.nominators operator_id nominator_id = some nmr)
    (hown : st.operatorIdOwner operator_id = some owner)
    (hne : owner ≠ nominator_id)
    (hcw : Staking.combineWithdraw
      (st.pendingWithdrawals operator_id nominator_id) w = .ok (.some wamt))
    (htp : pool.current_total_stake + pool.current_epoch_rewards < u128Size)
    (hle : wamt ≤ Staking.nominatorStakedAmount pool nmr) :
    (Staking.nominatorStakedAmount pool nmr - wamt <
        pool.minimum_nominator_stake →
      Staking.do_withdraw_stake cfg st operator_id nominator_id w =
        (.ok (), { st with pendingWithdrawals := fun i a =>
            if i = operator_id ∧ a = nominator_id then some .all
            else st.pendingWithdrawals i a }))
    ∧ (pool.minimum_nominator_stake ≤
        Staking.nominatorStakedAmount pool nmr - wamt →
      Staking.do_withdraw_stake cfg st operator_id nominator_id w =
        (.ok (), { st with pendingWithdrawals := fun i a =>
            if i = operator_id ∧ a = nominator_id then some (.some wamt)
            else st.pendingWithdrawals i a })) := by
  have hts : checkedAddBal pool.current_total_stake
      pool.current_epoch_rewards =
      some (pool.current_total_stake + pool.current_epoch_rewards) := by
    simp [checkedAddBal, htp]
  constructor
  · intro hprom
    simp [Staking.do_withdraw_stake, hpool, hfr, hnom, hown, hcw, hts,
      checkedSubBal, Staking.nominatorStakedAmount] at *
    simp [hle, hne, hprom]
  · intro hkeep
    simp [Staking.do_withdraw_stake, hpool, hfr, hnom, hown, hcw, hts,
      checkedSubBal, Staking.nominatorStakedAmount] at *
    simp [hle, hne, Nat.not_lt.2 hkeep]

/-- C4 witness: fixture nominator 1 (54 units of share-derived stake)
withdrawing 45 drops below the minimum nominator stake of 10, so the
call succeeds and stores a full withdrawal. -/
theorem withdraw_stake_nominator_promotion_witness :
    Staking.do_withdraw_stake cfg0 st0 0 1 (.some 45) =
      (.ok (), { st0 with pendingWithdrawals := fun i a =>
          if i = 0 ∧ a = 1 then some .all
          else st0.pendingWithdrawals i a }) :=
  (withdraw_stake_nominator_promotion cfg0 st0 0 1 0 (.some 45) pool0
    { shares := 50 } 45 rfl rfl rfl rfl (by decide) rfl (by decide)
    (by decide)).1 (by decide)

/-- Splitting the staking-freeze sum at the last allocated operator id. -/
theorem sumFrozen_succ (frozen : Nat → Nat → Nat) (n who : Nat) :
    Staking.sumFrozen frozen (n + 1) who =
      Staking.sumFrozen frozen n who + frozen n who := by
  simp [Staking.sumFrozen, List.range_succ]

/-- A freeze of zero at the last allocated id does not change the sum. -/
theorem sumFrozen_succ_zero (frozen : Nat → Nat → Nat) (n who : Nat)
    (h : frozen n who = 0) :
    Staking.sumFrozen frozen (n + 1) who = Staking.sumFrozen frozen n who := by
  rw [sumFrozen_succ, h, Nat.add_zero]

/-- The staking-freeze sum only depends on the freezes below the bound. -/
theorem sumFrozen_congr (f g : Nat → Nat → Nat) (n who : Nat)
    (h : ∀ i, i < n → f i who = g i who) :
    Staking.sumFrozen f n who = Staking.sumFrozen g n who := by
  unfold Staking.sumFrozen
  congr 1
  refine List.map_congr_left ?_
  intro i hi
  exact h i (List.mem_range.1 hi)

/-- C6: a successful register_operator returns the prior NextOperatorId,
bumps the counter by one, records the owner, inserts a fresh unfrozen
pool with zero stake, rewards and shares on the requested domain,
appends the new operator to the domain's next_operators, records the
pending deposit, and freezes the amount out of the owner's usable
balance; when the counter can no longer be bumped the call fails with
MaximumOperatorId. -/
theorem register_operator_spec (cfg : Staking.Config)
    (st : Staking.LedgerState) (operator_owner domain_id amount : Nat)
    (config : Staking.OperatorConfig) (s : Staking.StakingSummary)
    (hsum : st.domainStakingSummary domain_id = some s)
    (hlt : st.nextOperatorId < u64Max)
    (hmin : cfg.minOperatorStake ≤ amount)
    (hfz : st.frozen st.nextOperatorId operator_owner = 0)
    (husable : amount ≤ Staking.usableBalance st operator_owner)
    (hamt : amount < u128Size) :
    (Staking.do_register_operator cfg st operator_owner domain_id amount
        config).1 = .ok st.nextOperatorId
    ∧ (Staking.do_register_operator cfg st operator_owner domain_id amount
        config).2.nextOperatorId = st.nextOperatorId + 1
    ∧ (Staking.do_register_operator cfg st operator_owner domain_id amount
        config).2.operatorIdOwner st.nextOperatorId = some operator_owner
    ∧ (Staking.do_register_operator cfg st operator_owner domain_id amount
        config).2.operatorPools st.nextOperatorId = some
        { signing_key := config.signing_key
          current_domain_id := domain_id
          next_domain_id := domain_id
          minimum_nominator_stake := config.minimum_nominator_stake
          nomination_tax := config.nomination_tax
          current_total_stake := 0
          current_epoch_rewards := 0
          total_shares := 0
          is_frozen := false }
    ∧ (Staking.do_register_operator cfg st operator_owner domain_id amount
        config).2.domainStakingSummary domain_id = some
        { s with next_operators := s.next_operators ++ [st.nextOperatorId] }
    ∧ (Staking.do_register_operator cfg st operator_owner domain_id amount
        config).2.pendingDeposits st.nextOperatorId operator_owner =
        some amount
    ∧ Staking.usableBalance (Staking.do_register_operator cfg st
        operator_owner domain_id amount config).2 operator_owner =
        Staking.usableBalance st operator_owner - amount
    ∧ (∀ st2 : Staking.LedgerState, u64Max ≤ st2.nextOperatorId →
        (Staking.do_register_operator cfg st2 operator_owner domain_id
          amount config).1 = .error .MaximumOperatorId) := by
  have hus2 := Nat.not_lt.2 husable
  simp only [Staking.usableBalance] at hus2
  have hcg : Staking.sumFrozen
      (fun i a => if i = st.nextOperatorId ∧ a = operator_owner then amount
        else st.frozen i a) st.nextOperatorId operator_owner =
      Staking.sumFrozen st.frozen st.nextOperatorId operator_owner := by
    refine sumFrozen_congr _ _ _ _ ?_
    intro i hi
    simp [Nat.ne_of_lt hi]
  refine ⟨?_, ?_, ?_, ?_, ?_, ?_, ?_, ?_⟩
  · simp [Staking.do_register_operator,
      Staking.freeze_account_balance_to_operator, Staking.usableBalance,
      hsum, hlt, Nat.not_lt.2 hmin, hfz, sumFrozen_succ_zero, hus2,
      checkedAddBal, hamt]
  · simp [Staking.do_register_operator,
      Staking.freeze_account_balance_to_operator, Staking.usableBalance,
      hsum, hlt, Nat.not_lt.2 hmin, hfz, sumFrozen_succ_zero, hus2,
      checkedAddBal, hamt]
  · simp [Staking.do_register_operator,
      Staking.freeze_account_balance_to_operator, Staking.usableBalance,
      hsum, hlt, Nat.not_lt.2 hmin, hfz, sumFrozen_succ_zero, hus2,
      checkedAddBal, hamt]
  · simp [Staking.do_register_operator,
      Staking.freeze_account_balance_to_operator, Staking.usableBalance,
      hsum, hlt, Nat.not_lt.2 hmin, hfz, sumFrozen_succ_zero, hus2,
      checkedAddBal, hamt]
  · simp [Staking.do_register_operator,
      Staking.freeze_account_balance_to_operator, Staking.usableBalance,
      hsum, hlt, Nat.not_lt.2 hmin, hfz, sumFrozen_succ_zero, hus2,
      checkedAddBal, hamt]
  · simp [Staking.do_register_operator,
      Staking.freeze_account_balance_to_operator, Staking.usableBalance,
      hsum, hlt, Nat.not_lt.2 hmin, hfz, sumFrozen_succ_zero, hus2,
      checkedAddBal, hamt]
  · simp [Staking.do_register_operator,
      Staking.freeze_account_balance_to_operator, Staking.usableBalance,
      hsum, hlt, Nat.not_lt.2 hmin, hfz, sumFrozen_succ_zero, hus2,
      checkedAddBal, hamt, sumFrozen_succ, hcg, Nat.sub_sub]
  · intro st2 hge
    simp [Staking.do_register_operator, Nat.not_lt.2 hge]

/-- C6 witness: account 5 registering on domain 0 with 1000 units gets
operator id 1 and a pending deposit of 1000. -/
theorem register_operator_spec_witness :
    (Staking.do_register_operator cfg0 st0 5 0 1000
      { signing_key := 3, minimum_nominator_stake := 0,
        nomination_tax := 0 }).1 = .ok 1
    ∧ (Staking.do_register_operator cfg0 st0 5 0 1000
      { signing_key := 3, minimum_nominator_stake := 0,
        nomination_tax := 0 }).2.pendingDeposits 1 5 = some 1000 :=
  ⟨(register_operator_spec cfg0 st0 5 0 1000
      { signing_key := 3, minimum_nominator_stake := 0, nomination_tax := 0 }
      summary0 rfl (by decide) (by decide) rfl (by decide) (by decide)).1,
    (register_operator_spec cfg0 st0 5 0 1000
      { signing_key := 3, minimum_nominator_stake := 0, nomination_tax := 0 }
      summary0 rfl (by decide) (by decide) rfl (by decide)
      (by decide)).2.2.2.2.2.1⟩

/-! Light-client fixtures: a single stored parent header that is also the
best tip, a pass-through cryptographic collaborator, and a child header
extending it. -/

/-- Cryptographic collaborators that accept everything, with a constant
zero target. -/
def C0 : Lightclient.Crypto :=
  { checkSignature := fun _ => true
    verifySolution := fun _ => true
    deriveGlobalChallenge := fun _ _ => 0
    deriveTarget := fun _ _ _ => 0 }

/-- The parent header of the light-client fixtures. -/
def hdrParent : Lightclient.Header :=
  { number := 9
    parentHash := 100
    hash := 1
    preDigest := { slot := 5, solutionPublicKey := 0, solutionTag := 0, solutionLocalChallenge := 0 }
    globalRandomness := 0
    solutionRange := 0
    salt := 0
    sealPresent := true }

/-- The stored extension of the fixture parent, with chain weight 50. -/
def pext0 : Lightclient.HeaderExt :=
  { header := hdrParent
    derived_global_randomness := 0
    derived_solution_range := 0
    derived_salt := 0
    total_weight := 50 }

/-- A store holding only the fixture parent, which is the best tip. -/
def lcStore0 : Lightclient.Store :=
  { headers := fun x => if x = 1 then some pext0 else none
    best := pext0 }

/-- A child header extending the fixture parent at the next slot. -/
def hdrChild : Lightclient.Header :=
  { number := 10
    parentHash := 1
    hash := 2
    preDigest := { slot := 6, solutionPublicKey := 0, solutionTag := 0, solutionLocalChallenge := 0 }
    globalRandomness := 0
    solutionRange := 0
    salt := 0
    sealPresent := true }

/-- The fork-choice boolean of import_header holds exactly when the
parent is the best tip, or the new weight is strictly larger, or the
weights tie and the new header is strictly higher. -/
theorem isBestHeader_iff (last_best parent : Lightclient.HeaderExt)
    (h : Lightclient.Header) (W : Nat) :
    Lightclient.isBestHeader last_best parent h W = true ↔
      (last_best.header.hash = parent.header.hash ∨
        last_best.total_weight < W ∨
        (W = last_best.total_weight ∧ last_best.header.number < h.number)) := by
  unfold Lightclient.isBestHeader
  split_ifs with h1 h2 h3
  · simp [h1]
  · simp [h2]
  · simp [h1, h2, h3]
  · simp [h1, h2, h3]

/-- C7: a verified imported header becomes the best header exactly when
its parent is the current best, or its total weight is strictly greater
than the best's, or the weights are equal and its number is strictly
greater; otherwise (in particular for an equal-weight equal-number
sibling) the previous best remains the best tip. -/
theorem import_header_fork_choice (C : Lightclient.Crypto)
    (store : Lightclient.Store) (h : Lightclient.Header)
    (parent : Lightclient.HeaderExt)
    (hnew : store.headers h.hash = none)
    (hpar : store.headers h.parentHash = some parent)
    (hgr : h.globalRandomness = parent.derived_global_randomness)
    (hsr : h.solutionRange = parent.derived_solution_range)
    (hsalt : h.salt = parent.derived_salt)
    (hslot : parent.header.preDigest.slot < h.preDigest.slot)
    (hseal : h.sealPresent = true)
    (hsig : C.checkSignature h = true)
    (hsol : C.verifySolution h = true) :
    Lightclient.import_header C store h = .ok
      (store.store_header (Lightclient.importedHeaderExt C parent h)
        (Lightclient.isBestHeader store.best parent h
          (Lightclient.importedHeaderExt C parent h).total_weight))
    ∧ (∀ store1 : Lightclient.Store,
      Lightclient.import_header C store h = .ok store1 →
      store1.best =
        if store.best.header.hash = parent.header.hash ∨
            store.best.total_weight <
              (Lightclient.importedHeaderExt C parent h).total_weight ∨
            ((Lightclient.importedHeaderExt C parent h).total_weight =
              store.best.total_weight ∧
              store.best.header.number < h.number) then
          Lightclient.importedHeaderExt C parent h
        else store.best) := by
  have hred : Lightclient.import_header C store h = .ok
      (store.store_header (Lightclient.importedHeaderExt C parent h)
        (Lightclient.isBestHeader store.best parent h
          (Lightclient.importedHeaderExt C parent h).total_weight)) := by
    simp [Lightclient.import_header, hnew, hpar, hgr, hsr, hsalt,
      Nat.not_le.2 hslot, hseal, hsig, hsol]
  refine ⟨hred, ?_⟩
  intro store1 hok
  rw [hred] at hok
  simp only [Except.ok.injEq] at hok
  rw [← hok]
  simp only [Lightclient.Store.store_header]
  exact if_congr (isBestHeader_iff store.best parent h
    (Lightclient.importedHeaderExt C parent h).total_weight) rfl rfl

/-- C7 witness: importing the fixture child, whose parent is the best
tip, succeeds and stores it as the new best. -/
theorem import_header_fork_choice_witness :
    Lightclient.import_header C0 lcStore0 hdrChild = .ok
      (lcStore0.store_header (Lightclient.importedHeaderExt C0 pext0 hdrChild)
        (Lightclient.isBestHeader lcStore0.best pext0 hdrChild
          (Lightclient.importedHeaderExt C0 pext0 hdrChild).total_weight)) :=
  (import_header_fork_choice C0 lcStore0 hdrChild pext0 rfl rfl rfl rfl rfl
    (by decide) rfl rfl rfl).1

/-- C8 (amended): the stored cumulative weight of an imported header is
(parent.total_weight + block_weight) reduced modulo 2 to the 128, with
block_weight equal to u64::MAX minus the bidirectional distance between
the derived target and the solution tag; the stored value equals the
exact sum whenever that sum fits in 128 bits (the spec's domain
assumption), but the u128 addition wraps silently instead of reporting
an error when it does not. -/
theorem import_header_weight_mod (C : Lightclient.Crypto)
    (store : Lightclient.Store) (h : Lightclient.Header)
    (parent : Lightclient.HeaderExt) (store1 : Lightclient.Store)
    (hpar : store.headers h.parentHash = some parent)
    (hok : Lightclient.import_header C store h = .ok store1) :
    store1.headers h.hash = some (Lightclient.importedHeaderExt C parent h)
    ∧ (Lightclient.importedHeaderExt C parent h).total_weight =
      (parent.total_weight + Lightclient.calculate_block_weight C h) % u128Size
    ∧ Lightclient.calculate_block_weight C h =
      u64Max - Lightclient.bidirectional_distance
        (C.deriveTarget h.preDigest.solutionPublicKey
          (C.deriveGlobalChallenge h.globalRandomness h.preDigest.slot)
          h.preDigest.solutionLocalChallenge)
        h.preDigest.solutionTag
    ∧ (parent.total_weight + Lightclient.calculate_block_weight C h <
        u128Size →
      (Lightclient.importedHeaderExt C parent h).total_weight =
        parent.total_weight + Lightclient.calculate_block_weight C h) := by
  simp only [Lightclient.import_header, hpar] at hok
  split at hok
  · exact Except.noConfusion hok
  · split_ifs at hok
    simp only [Except.ok.injEq] at hok
    rw [← hok]
    refine ⟨?_, ?_, ?_, ?_⟩
    · simp [Lightclient.Store.store_header, Lightclient.importedHeaderExt]
    · simp [Lightclient.importedHeaderExt]
    · simp [Lightclient.calculate_block_weight]
    · intro hlt
      simp [Lightclient.importedHeaderExt, Nat.mod_eq_of_lt hlt]

/-- C8 witness: for the fixture child the stored weight is the exact
128-bit sum 50 + u64::MAX, which fits. -/
theorem import_header_weight_mod_witness :
    (Lightclient.importedHeaderExt C0 pext0 hdrChild).total_weight =
      (pext0.total_weight + Lightclient.calculate_block_weight C0 hdrChild) %
        u128Size :=
  (import_header_weight_mod C0 lcStore0 hdrChild pext0
    (lcStore0.store_header (Lightclient.importedHeaderExt C0 pext0 hdrChild)
      true) rfl rfl).2.1

/-- The stored parent of the wrap counterexample, holding the largest
representable u128 chain weight. -/
def pextBig : Lightclient.HeaderExt :=
  { header := hdrParent
    derived_global_randomness := 0
    derived_solution_range := 0
    derived_salt := 0
    total_weight := u128Size - 1 }

/-- A store holding only the maximal-weight parent as best tip. -/
def lcStoreBig : Lightclient.Store :=
  { headers := fun x => if x = 1 then some pextBig else none
    best := pextBig }

/-- The cumulative weight import_header records for the given header, if
the import succeeds and stores it. -/
def storedWeightAt (C : Lightclient.Crypto) (store : Lightclient.Store)
    (h : Lightclient.Header) : Option Nat :=
  match Lightclient.import_header C store h with
  | .ok s => (s.headers h.hash).map Lightclient.HeaderExt.total_weight
  | .error _ => none

/-- C8 counterexample: importing the fixture child on top of a parent of
weight 2 ^ 128 - 1 succeeds, yet the stored total weight is u64::MAX - 1
rather than parent.total_weight + block_weight: the u128 addition
silently wrapped and no error was reported. -/
theorem import_header_weight_wraps_cex :
    storedWeightAt C0 lcStoreBig hdrChild = some (u64Max - 1)
    ∧ u64Max - 1 ≠
      pextBig.total_weight + Lightclient.calculate_block_weight C0 hdrChild := by
  constructor
  · rfl
  · decide
